import Mathlib

/-!
Shallow embedding of the winmix library (src/src/lib.rs).

The library enumerates Windows audio sessions via WASAPI and exposes a
per-session volume handle.  Every fallible platform call made by the code
is modelled as an explicit `Except OsError _` field of a mock-platform
description (`MockWorld` / `MockDevice` / `MockSession`), and the control
flow of `WinMix::enumerate`, `impl Default for WinMix`, `impl Drop for
WinMix`, and the `SimpleVolume` methods is translated match-for-match:
each Rust `?` becomes an explicit `match` on the corresponding field.
-/

/-- Uniform platform error: wraps an underlying OS status code
(`windows_result::Error`). -/
structure OsError where
  code : Nat
deriving DecidableEq

/-- The Win32 `MAX_PATH` constant: capacity of the module-name buffer at
lib.rs:106 (`[u16; MAX_PATH as usize]`). -/
def MAX_PATH : Nat := 260

/-- Whether a UTF-16 code unit is a high (leading) surrogate. -/
def isHighSurrogate (u : Nat) : Bool := 0xD800 ≤ u && u < 0xDC00

/-- Whether a UTF-16 code unit is a low (trailing) surrogate. -/
def isLowSurrogate (u : Nat) : Bool := 0xDC00 ≤ u && u < 0xE000

/-- Lossy decoding of a single unpaired UTF-16 code unit: a lone surrogate
becomes U+FFFD, anything else is itself. -/
def utf16One (u : Nat) : Nat :=
  if isHighSurrogate u || isLowSurrogate u then 0xFFFD else u

/-- Scalar value encoded by a valid surrogate pair. -/
def combineSurrogates (u1 u2 : Nat) : Nat :=
  0x10000 + (u1 - 0xD800) * 0x400 + (u2 - 0xDC00)

/-- Model of Rust `String::from_utf16_lossy` at the code-point level: the
buffer of `u16` code units becomes the list of decoded Unicode scalar
values (lib.rs:119). -/
def utf16Decode : List Nat → List Nat
  | [] => []
  | [u] => [utf16One u]
  | u1 :: u2 :: rest =>
    if isHighSurrogate u1 && isLowSurrogate u2 then
      combineSurrogates u1 u2 :: utf16Decode rest
    else
      utf16One u1 :: utf16Decode (u2 :: rest)

/-- UTF-8 byte length of one Unicode scalar value; Rust `str::len` counts
these bytes. -/
def utf8Len (c : Nat) : Nat :=
  if c < 0x80 then 1 else if c < 0x800 then 2 else if c < 0x10000 then 3 else 4

/-- UTF-8 byte length of a decoded string. -/
def byteLen (l : List Nat) : Nat := (l.map utf8Len).sum

/-- Model of `str::trim_matches(char::from(0))` (lib.rs:120): removes the
null characters at both ends of the string. -/
def trimZeros (l : List Nat) : List Nat :=
  ((l.dropWhile (· == 0)).reverse.dropWhile (· == 0)).reverse

/-- Model of `String::truncate(n)` (lib.rs:120): keep the longest prefix of
whole characters whose UTF-8 byte length fits in `n`. -/
def takeBytes : Nat → List Nat → List Nat
  | _, [] => []
  | n, c :: cs => if utf8Len c ≤ n then c :: takeBytes (n - utf8Len c) cs else []

/-- The combined path clean-up performed at lib.rs:119-120:
`path.truncate(path.trim_matches(char::from(0)).len())` applied to the
lossily decoded buffer. -/
def rustPathFix (l : List Nat) : List Nat := takeBytes (byteLen (trimZeros l)) l

/-- Contents of the `[u16; MAX_PATH]` buffer (initially all zero,
lib.rs:106) after `GetModuleFileNameExW` successfully writes the module
name `m` from position 0: the name, truncated to the buffer capacity,
followed by the untouched zero padding. -/
def fillBuffer (m : List Nat) : List Nat :=
  (m ++ List.replicate MAX_PATH 0).take MAX_PATH

/-- Mock of the platform `ISimpleAudioVolume` interface: each COM method is
a field.  The second argument of the setters models the
`*const GUID` event-context pointer (the code always passes
`ptr::null()`). -/
structure ISimpleAudioVolume where
  SetMasterVolume : Float → Option Nat → Except OsError Unit
  GetMasterVolume : Except OsError Float
  SetMute : Bool → Option Nat → Except OsError Unit
  GetMute : Except OsError Bool

/-- `SimpleVolume` wraps one `ISimpleAudioVolume` handle (lib.rs:169-171). -/
structure SimpleVolume where
  handle : ISimpleAudioVolume

/-- `SimpleVolume::get_master_volume` (lib.rs:178-180). -/
def SimpleVolume.get_master_volume (v : SimpleVolume) : Except OsError Float :=
  v.handle.GetMasterVolume

/-- `SimpleVolume::set_master_volume` (lib.rs:188-190): forwards `level`
and a null event-context pointer to the platform call. -/
def SimpleVolume.set_master_volume (v : SimpleVolume) (level : Float) :
    Except OsError Unit :=
  v.handle.SetMasterVolume level none

/-- `SimpleVolume::get_mute` (lib.rs:196-201): converts the platform BOOL
result, propagating errors. -/
def SimpleVolume.get_mute (v : SimpleVolume) : Except OsError Bool :=
  match v.handle.GetMute with
  | .ok val => .ok val
  | .error e => .error e

/-- `SimpleVolume::set_mute` (lib.rs:209-211). -/
def SimpleVolume.set_mute (v : SimpleVolume) (val : Bool) : Except OsError Unit :=
  v.handle.SetMute val none

/-- The `Session` record produced per audio session (lib.rs:160-167):
`pid` is the owning process id, `path` the decoded executable path
(as a list of Unicode scalar values), `vol` the volume handle.  No OS
process handle is a field of this record. -/
structure Session where
  pid : Nat
  path : List Nat
  vol : SimpleVolume

/-- Behaviour of one platform audio session as seen by the body of the
inner loop of `enumerate` (lib.rs:91-126).  Each fallible call the code
makes for this session is one field:
* `castCtrl2` — `ctrl.cast::<IAudioSessionControl2>()?` (lib.rs:92);
* `getProcessId` — `ctrl2.GetProcessId()?` (lib.rs:94);
* `openProcess` — `OpenProcess(..., pid)?` (lib.rs:104);
* `moduleName` — result of `GetModuleFileNameExW` (lib.rs:108): `some m`
  when the call succeeds having written the UTF-16 units `m`, `none`
  when it returns 0 and leaves the buffer untouched;
* `closeHandle` — `CloseHandle(proc)?` (lib.rs:109);
* `castVolume` — `ctrl2.cast::<ISimpleAudioVolume>()?` (lib.rs:116). -/
structure MockSession where
  castCtrl2 : Except OsError Unit
  getProcessId : Except OsError Nat
  openProcess : Except OsError Unit
  moduleName : Option (List Nat)
  closeHandle : Except OsError Unit
  castVolume : Except OsError ISimpleAudioVolume

/-- Behaviour of one active endpoint device (lib.rs:83-88): `activate` is
`dev.Activate::<IAudioSessionManager2>(...)?`, `getSessionEnumerator` is
`manager.GetSessionEnumerator()?`, and `sessionList` merges
`enumerator.GetCount()?` (outer `Except`) with the per-index
`enumerator.GetSession(i)?` results (inner `Except`s, in index order). -/
structure MockDevice where
  activate : Except OsError Unit
  getSessionEnumerator : Except OsError Unit
  sessionList : Except OsError (List (Except OsError MockSession))

/-- Behaviour of the platform for one `enumerate` call (lib.rs:75-83):
`coCreateInstance` is `CoCreateInstance(&MMDeviceEnumerator, ...)?`,
`enumAudioEndpoints` is `res.EnumAudioEndpoints(eRender, ...)?`, and
`deviceList` merges `collection.GetCount()?` with the per-index
`collection.Item(i)?` results. -/
structure MockWorld where
  coCreateInstance : Except OsError Unit
  enumAudioEndpoints : Except OsError Unit
  deviceList : Except OsError (List (Except OsError MockDevice))

/-- Body of the inner session loop of `enumerate` (lib.rs:91-126).  Returns
`.ok none` when the session is skipped (`pid == 0`, lib.rs:96-102),
`.ok (some s)` when a `Session` is pushed, `.error e` when a `?` aborts.
The commented-out `continue` at lib.rs:111-114 means a failed
`GetModuleFileNameExW` (`moduleName = none`) changes nothing: the
session is still produced, with the all-zero buffer as its path. -/
def processSession (ms : MockSession) : Except OsError (Option Session) :=
  match ms.castCtrl2 with
  | .error e => .error e
  | .ok _ =>
    match ms.getProcessId with
    | .error e => .error e
    | .ok pid =>
      if pid = 0 then .ok none
      else
        match ms.openProcess with
        | .error e => .error e
        | .ok _ =>
          let buf : List Nat :=
            match ms.moduleName with
            | some m => fillBuffer m
            | none => List.replicate MAX_PATH 0
          match ms.closeHandle with
          | .error e => .error e
          | .ok _ =>
            match ms.castVolume with
            | .error e => .error e
            | .ok vol =>
              .ok (some { pid := pid
                          path := rustPathFix (utf16Decode buf)
                          vol := { handle := vol } })

/-- The inner loop of `enumerate` over the sessions of one device
(lib.rs:90-127), accumulating the pushed `Session`s in order; any error
aborts the whole computation. -/
def processSessions : List (Except OsError MockSession) → Except OsError (List Session)
  | [] => .ok []
  | es :: rest =>
    match es with
    | .error e => .error e
    | .ok ms =>
      match processSession ms with
      | .error e => .error e
      | .ok os =>
        match processSessions rest with
        | .error e => .error e
        | .ok tail =>
          match os with
          | some s => .ok (s :: tail)
          | none => .ok tail

/-- Body of the outer device loop of `enumerate` (lib.rs:82-128) for one
device. -/
def processDevice (md : MockDevice) : Except OsError (List Session) :=
  match md.activate with
  | .error e => .error e
  | .ok _ =>
    match md.getSessionEnumerator with
    | .error e => .error e
    | .ok _ =>
      match md.sessionList with
      | .error e => .error e
      | .ok ss => processSessions ss

/-- The outer device loop of `enumerate` (lib.rs:82-128): sessions of all
devices are concatenated in device order. -/
def processDevices : List (Except OsError MockDevice) → Except OsError (List Session)
  | [] => .ok []
  | ed :: rest =>
    match ed with
    | .error e => .error e
    | .ok md =>
      match processDevice md with
      | .error e => .error e
      | .ok ss =>
        match processDevices rest with
        | .error e => .error e
        | .ok tail => .ok (ss ++ tail)

/-- `WinMix::enumerate` (lib.rs:72-131) over a mock platform. -/
def enumerate (w : MockWorld) : Except OsError (List Session) :=
  match w.coCreateInstance with
  | .error e => .error e
  | .ok _ =>
    match w.enumAudioEndpoints with
    | .error e => .error e
    | .ok _ =>
      match w.deviceList with
      | .error e => .error e
      | .ok devs => processDevices devs

/-- The `WinMix` lifecycle manager (lib.rs:62-65): records only whether
this instance's construction initialized COM. -/
structure WinMix where
  com_initialized : Bool

/-- `impl Default for WinMix` (lib.rs:134-147).  `coInitResult` models the
spec-level interface of `CoInitialize`
(`audio.init() -> Result<Owned, AlreadyInitialized>`): `.ok` means this
call performed the initialization, `.error` that it did not (failed, or
the subsystem was already initialized elsewhere).  Construction is a
total function: it always yields a `WinMix`, with
`com_initialized := hres.is_ok()`. -/
def winmixDefault (coInitResult : Except OsError Unit) : WinMix :=
  { com_initialized := coInitResult.isOk }

/-- COM lifecycle calls observable at teardown. -/
inductive ComCall where
  | coUninitialize
deriving DecidableEq

/-- `impl Drop for WinMix` (lib.rs:149-158) as the list of platform calls
it performs: `CoUninitialize()` exactly when `com_initialized` is set. -/
def dropCalls (w : WinMix) : List ComCall :=
  if w.com_initialized then [ComCall.coUninitialize] else []

/-- Process-handle events during the handling of one session. -/
inductive PCall where
  | openProcessCall
  | closeHandleCall
deriving DecidableEq

/-- Trace of the process-handle calls made by the inner loop body of
`enumerate` for one session (lib.rs:104-109): `openProcessCall` is
recorded when `OpenProcess` succeeds, and `CloseHandle` is invoked
unconditionally right after `GetModuleFileNameExW` (which cannot abort
the loop body), regardless of that query's outcome. -/
def sessionTrace (ms : MockSession) : List PCall :=
  match ms.castCtrl2 with
  | .error _ => []
  | .ok _ =>
    match ms.getProcessId with
    | .error _ => []
    | .ok pid =>
      if pid = 0 then []
      else
        match ms.openProcess with
        | .error _ => []
        | .ok _ => [PCall.openProcessCall, PCall.closeHandleCall]

/-- Well-formedness of a platform session: a successfully queried module
name contains no interior null units (`GetModuleFileNameExW` copies the
name up to, and excluding, its null terminator). -/
def WFSession (ms : MockSession) : Prop :=
  ∀ m, ms.moduleName = some m → 0 ∉ m

/-- Well-formedness of a device: every session it can yield is well formed. -/
def WFDevice (md : MockDevice) : Prop :=
  ∀ l, md.sessionList = .ok l → ∀ es ∈ l, ∀ ms, es = .ok ms → WFSession ms

/-- Well-formedness of a platform world: every device it can yield is well
formed. -/
def WFWorld (w : MockWorld) : Prop :=
  ∀ l, w.deviceList = .ok l → ∀ ed ∈ l, ∀ md, ed = .ok md → WFDevice md

/-- The per-session platform steps that must all have succeeded for
`enumerate` to have passed over this session without aborting. -/
def sessionStepsOk (ms : MockSession) : Prop :=
  ms.castCtrl2.isOk ∧
  ∃ pid, ms.getProcessId = .ok pid ∧
    (pid ≠ 0 → ms.openProcess.isOk ∧ ms.closeHandle.isOk ∧ ms.castVolume.isOk)

/-- A trivially succeeding mock volume interface, used by the concrete
scenario worlds below. -/
def mockVolume : ISimpleAudioVolume :=
  { SetMasterVolume := fun _ _ => .ok ()
    GetMasterVolume := .ok 1.0
    SetMute := fun _ _ => .ok ()
    GetMute := .ok false }

/-- Scenario for C1: a session owned by pid 1234 whose `OpenProcess` call
fails with OS error 5 (access denied); every other platform call
succeeds. -/
def c1Session : MockSession :=
  { castCtrl2 := .ok ()
    getProcessId := .ok 1234
    openProcess := .error ⟨5⟩
    moduleName := none
    closeHandle := .ok ()
    castVolume := .ok mockVolume }

/-- One active endpoint exposing only `c1Session`. -/
def c1Device : MockDevice :=
  { activate := .ok ()
    getSessionEnumerator := .ok ()
    sessionList := .ok [.ok c1Session] }

/-- World for C1: all enumeration steps succeed, only the per-process
`OpenProcess` fails. -/
def c1World : MockWorld :=
  { coCreateInstance := .ok ()
    enumAudioEndpoints := .ok ()
    deviceList := .ok [.ok c1Device] }

/-- Scenario session for C2: pid 1234, all calls succeed, module-name
query fails (path stays empty). -/
def c2Session : MockSession :=
  { castCtrl2 := .ok ()
    getProcessId := .ok 1234
    openProcess := .ok ()
    moduleName := none
    closeHandle := .ok ()
    castVolume := .ok mockVolume }

/-- World for C2: one endpoint with the single session `c2Session`. -/
def c2World : MockWorld :=
  { coCreateInstance := .ok ()
    enumAudioEndpoints := .ok ()
    deviceList := .ok [.ok { activate := .ok ()
                             getSessionEnumerator := .ok ()
                             sessionList := .ok [.ok c2Session] }] }

/-- World for C3's witness: one active endpoint with an empty session
list, every platform step succeeding. -/
def c3World : MockWorld :=
  { coCreateInstance := .ok ()
    enumAudioEndpoints := .ok ()
    deviceList := .ok [.ok { activate := .ok ()
                             getSessionEnumerator := .ok ()
                             sessionList := .ok [] }] }

/-- UTF-16 units of the ASCII module path `C:\a.exe`. -/
def samplePathUnits : List Nat := [67, 58, 92, 97, 46, 101, 120, 101]

/-- Scenario session for C5: pid 42 whose module name resolves to
`samplePathUnits`. -/
def c5Session : MockSession :=
  { castCtrl2 := .ok ()
    getProcessId := .ok 42
    openProcess := .ok ()
    moduleName := some samplePathUnits
    closeHandle := .ok ()
    castVolume := .ok mockVolume }

/-- One active endpoint exposing only `c5Session`. -/
def c5Device : MockDevice :=
  { activate := .ok ()
    getSessionEnumerator := .ok ()
    sessionList := .ok [.ok c5Session] }

/-- World for C5's witness: one endpoint with the single session
`c5Session`. -/
def c5World : MockWorld :=
  { coCreateInstance := .ok ()
    enumAudioEndpoints := .ok ()
    deviceList := .ok [.ok c5Device] }

/-- The `Session` value produced by `enumerate` on `c5World`. -/
def c5OutSession : Session :=
  { pid := 42, path := samplePathUnits, vol := { handle := mockVolume } }

/-- The pid-0 system-sounds pseudo-session of the C8 scenario. -/
def c8SystemSession : MockSession :=
  { castCtrl2 := .ok ()
    getProcessId := .ok 0
    openProcess := .ok ()
    moduleName := none
    closeHandle := .ok ()
    castVolume := .ok mockVolume }

/-- The pid-1234 session of the C8 scenario. -/
def c8AppSession : MockSession :=
  { castCtrl2 := .ok ()
    getProcessId := .ok 1234
    openProcess := .ok ()
    moduleName := some samplePathUnits
    closeHandle := .ok ()
    castVolume := .ok mockVolume }

/-- World for C8: exactly one active endpoint exposing exactly the two
sessions with pids 0 and 1234, all platform calls succeeding. -/
def c8World : MockWorld :=
  { coCreateInstance := .ok ()
    enumAudioEndpoints := .ok ()
    deviceList := .ok [.ok { activate := .ok ()
                             getSessionEnumerator := .ok ()
                             sessionList := .ok [.ok c8SystemSession, .ok c8AppSession] }] }

/-- A pid-0 system-sounds session for the C10 witness. -/
def c10Session : MockSession :=
  { castCtrl2 := .ok ()
    getProcessId := .ok 0
    openProcess := .ok ()
    moduleName := none
    closeHandle := .ok ()
    castVolume := .ok mockVolume }

/-- One active endpoint whose only session is `c10Session`. -/
def c10Device : MockDevice :=
  { activate := .ok ()
    getSessionEnumerator := .ok ()
    sessionList := .ok [.ok c10Session] }

/-- World for C10's witness: one endpoint whose only session has pid 0. -/
def c10World : MockWorld :=
  { coCreateInstance := .ok ()
    enumAudioEndpoints := .ok ()
    deviceList := .ok [.ok c10Device] }

/-- The `Session` value produced by `enumerate` on `c2World`. -/
def c2OutSession : Session :=
  { pid := 1234, path := [], vol := { handle := mockVolume } }

theorem utf8Len_pos (c : Nat) : 0 < utf8Len c := by
  unfold utf8Len
  split <;> norm_num
  split <;> norm_num
  split <;> norm_num

theorem utf16One_ne_zero (u : Nat) (h : u ≠ 0) : utf16One u ≠ 0 := by
  unfold utf16One
  split <;> simp [h]

theorem combineSurrogates_ne_zero (u1 u2 : Nat) : combineSurrogates u1 u2 ≠ 0 := by
  unfold combineSurrogates
  omega

theorem utf16Decode_replicate_zero (k : Nat) :
    utf16Decode (List.replicate k 0) = List.replicate k 0 := by
  induction k using Nat.strong_induction_on with
  | _ k ih =>
    match k with
    | 0 => rfl
    | 1 => rfl
    | n + 2 =>
      have h1 : (List.replicate (n + 2) 0 : List Nat) = 0 :: 0 :: List.replicate n 0 := rfl
      have h2 : ((0 : Nat) :: List.replicate n 0) = List.replicate (n + 1) 0 := rfl
      rw [h1]
      rw [utf16Decode]
      have hs : (isHighSurrogate 0 && isLowSurrogate 0) = false := rfl
      rw [hs]
      simp only [Bool.false_eq_true, if_false]
      rw [h2, ih (n + 1) (by omega)]
      rfl

theorem utf16Decode_append_replicate_zero (t : List Nat) (k : Nat) :
    utf16Decode (t ++ List.replicate k 0) = utf16Decode t ++ List.replicate k 0 := by
  induction t using utf16Decode.induct with
  | case1 => simpa using utf16Decode_replicate_zero k
  | case2 u =>
    cases k with
    | zero => simp
    | succ n =>
      have h1 : ([u] ++ List.replicate (n + 1) 0 : List Nat) = u :: 0 :: List.replicate n 0 := rfl
      have hs : (isHighSurrogate u && isLowSurrogate 0) = false := by
        simp [isLowSurrogate]
      have h2 : ((0 : Nat) :: List.replicate n 0) = List.replicate (n + 1) 0 := rfl
      rw [h1]
      simp only [utf16Decode, hs, Bool.false_eq_true, if_false]
      rw [h2, utf16Decode_replicate_zero (n + 1)]
      rfl
  | case3 u1 u2 rest hcond ih =>
    simp only [List.cons_append, utf16Decode, hcond, if_true, List.append_eq, ih]
  | case4 u1 u2 rest hcond ih =>
    simp only [Bool.not_eq_true] at hcond
    simp only [List.cons_append] at ih
    simp only [List.cons_append, utf16Decode, hcond, Bool.false_eq_true, if_false,
      List.append_eq, ih]

theorem utf16Decode_not_mem_zero (t : List Nat) (h : 0 ∉ t) : 0 ∉ utf16Decode t := by
  induction t using utf16Decode.induct with
  | case1 => simp [utf16Decode]
  | case2 u =>
    simp only [List.mem_singleton] at h
    simp only [utf16Decode, List.mem_singleton]
    exact fun he => utf16One_ne_zero u (fun hu => h hu.symm) he.symm
  | case3 u1 u2 rest hcond ih =>
    simp only [List.mem_cons, not_or] at h
    simp only [utf16Decode, hcond, if_true, List.mem_cons, not_or]
    exact ⟨combineSurrogates_ne_zero u1 u2 ∘ Eq.symm, ih h.2.2⟩
  | case4 u1 u2 rest hcond ih =>
    simp only [Bool.not_eq_true] at hcond
    simp only [List.mem_cons, not_or] at h
    have ih2 : 0 ∉ utf16Decode (u2 :: rest) := by
      apply ih
      simp only [List.mem_cons, not_or]
      exact ⟨h.2.1, h.2.2⟩
    simp only [utf16Decode, hcond, Bool.false_eq_true, if_false, List.mem_cons, not_or]
    exact ⟨fun he => utf16One_ne_zero u1 (fun hu => h.1 hu.symm) he.symm, ih2⟩

theorem dropWhile_zero_of_not_mem (l : List Nat) (h : 0 ∉ l) :
    l.dropWhile (· == 0) = l := by
  cases l with
  | nil => rfl
  | cons a as =>
    simp only [List.mem_cons, not_or] at h
    have ha : (a == 0) = false := by
      simp only [beq_eq_false_iff_ne, ne_eq]
      exact fun hh => h.1 hh.symm
    simp [List.dropWhile, ha]

theorem dropWhile_zero_replicate_append (k : Nat) (l : List Nat) :
    (List.replicate k 0 ++ l).dropWhile (· == 0) = l.dropWhile (· == 0) := by
  induction k with
  | zero => rfl
  | succ n ih =>
    rw [List.replicate_succ, List.cons_append, List.dropWhile_cons_of_pos (by simp)]
    exact ih

theorem dropWhile_zero_replicate (k : Nat) :
    (List.replicate k 0 : List Nat).dropWhile (· == 0) = [] := by
  have h0 := dropWhile_zero_replicate_append k ([] : List Nat)
  rw [List.append_nil] at h0
  exact h0

theorem trimZeros_append_replicate (d : List Nat) (k : Nat) (h : 0 ∉ d) :
    trimZeros (d ++ List.replicate k 0) = d := by
  unfold trimZeros
  cases d with
  | nil =>
    simp only [List.nil_append]
    rw [dropWhile_zero_replicate]
    rfl
  | cons a as =>
    simp only [List.mem_cons, not_or] at h
    have ha : (a == 0) = false := by
      simp only [beq_eq_false_iff_ne, ne_eq]
      exact fun hh => h.1 hh.symm
    rw [List.cons_append, List.dropWhile_cons_of_neg (by simp [ha])]
    rw [show ((a :: (as ++ List.replicate k 0)).reverse : List Nat)
          = List.replicate k 0 ++ (a :: as).reverse from by
        simp [List.reverse_cons, List.reverse_append, List.reverse_replicate,
          List.append_assoc]]
    rw [dropWhile_zero_replicate_append]
    rw [dropWhile_zero_of_not_mem _ (by
      rw [List.mem_reverse]
      simp only [List.mem_cons, not_or]
      exact ⟨h.1, h.2⟩)]
    exact List.reverse_reverse _

theorem takeBytes_byteLen_append (d r : List Nat) :
    takeBytes (byteLen d) (d ++ r) = d := by
  induction d with
  | nil =>
    cases r with
    | nil => rfl
    | cons c cs =>
      show takeBytes 0 (c :: cs) = []
      unfold takeBytes
      rw [if_neg (by have := utf8Len_pos c; omega)]
  | cons c cs ih =>
    show takeBytes (byteLen (c :: cs)) (c :: (cs ++ r)) = c :: cs
    have hb : byteLen (c :: cs) = utf8Len c + byteLen cs := by simp [byteLen]
    unfold takeBytes
    rw [hb, if_pos (Nat.le_add_right _ _), Nat.add_sub_cancel_left, ih]

theorem rustPathFix_decode_write (t : List Nat) (k : Nat) (h : 0 ∉ t) :
    rustPathFix (utf16Decode (t ++ List.replicate k 0)) = utf16Decode t := by
  rw [utf16Decode_append_replicate_zero]
  unfold rustPathFix
  rw [trimZeros_append_replicate _ _ (utf16Decode_not_mem_zero t h)]
  exact takeBytes_byteLen_append _ _

theorem fillBuffer_eq (m : List Nat) :
    fillBuffer m = m.take MAX_PATH ++ List.replicate (MAX_PATH - m.length) 0 := by
  unfold fillBuffer
  rw [List.take_append_eq_append_take, List.take_replicate]
  congr 2
  omega

theorem getLast?_ne_zero_of_not_mem (l : List Nat) (h : 0 ∉ l) :
    l.getLast? ≠ some 0 := by
  intro hc
  have hm : (0 : Nat) ∈ l.getLast? := by rw [hc]; rfl
  obtain ⟨hne, heq⟩ := List.mem_getLast?_eq_getLast hm
  exact h (heq ▸ List.getLast_mem hne)

theorem processSession_ok_some_iff (ms : MockSession) (s : Session) :
    processSession ms = .ok (some s) ↔
    ∃ pid vol, ms.castCtrl2 = .ok () ∧ ms.getProcessId = .ok pid ∧ pid ≠ 0 ∧
      ms.openProcess = .ok () ∧ ms.closeHandle = .ok () ∧ ms.castVolume = .ok vol ∧
      s = { pid := pid
            path := rustPathFix (utf16Decode (match ms.moduleName with
              | some m => fillBuffer m
              | none => List.replicate MAX_PATH 0))
            vol := { handle := vol } } := by
  cases h1 : ms.castCtrl2 with
  | error e => simp [processSession, h1]
  | ok u =>
    cases u
    cases h2 : ms.getProcessId with
    | error e => simp [processSession, h1, h2]
    | ok pid =>
      by_cases hp : pid = 0
      · simp [processSession, h1, h2, hp]
      · cases h3 : ms.openProcess with
        | error e => simp [processSession, h1, h2, hp, h3]
        | ok u3 =>
          cases u3
          cases h4 : ms.closeHandle with
          | error e => simp [processSession, h1, h2, hp, h3, h4]
          | ok u4 =>
            cases u4
            cases h5 : ms.castVolume with
            | error e => simp [processSession, h1, h2, hp, h3, h4, h5]
            | ok vol =>
              have hL : processSession ms
                  = .ok (some { pid := pid
                                path := rustPathFix (utf16Decode (match ms.moduleName with
                                  | some m => fillBuffer m
                                  | none => List.replicate MAX_PATH 0))
                                vol := { handle := vol } }) := by
                simp [processSession, h1, h2, h3, h4, h5, if_neg hp]
              constructor
              · intro hs
                rw [hL] at hs
                injection hs with hs1
                injection hs1 with hs2
                exact ⟨pid, vol, rfl, rfl, hp, rfl, rfl, rfl, hs2.symm⟩
              · rintro ⟨pid2, vol2, _, hc2, _, _, _, hc5, hs⟩
                injection hc2 with hpid
                subst hpid
                injection hc5 with hvol
                subst hvol
                subst hs
                exact hL

theorem processSession_ok_none_iff (ms : MockSession) :
    processSession ms = .ok none ↔ ms.castCtrl2 = .ok () ∧ ms.getProcessId = .ok 0 := by
  cases h1 : ms.castCtrl2 with
  | error e => simp [processSession, h1]
  | ok u =>
    cases u
    cases h2 : ms.getProcessId with
    | error e => simp [processSession, h1, h2]
    | ok pid =>
      by_cases hp : pid = 0
      · subst hp
        simp [processSession, h1, h2]
      · cases h3 : ms.openProcess with
        | error e => simp [processSession, h1, h2, hp, h3]
        | ok u3 =>
          cases u3
          cases h4 : ms.closeHandle with
          | error e => simp [processSession, h1, h2, hp, h3, h4]
          | ok u4 =>
            cases u4
            cases h5 : ms.castVolume with
            | error e => simp [processSession, h1, h2, hp, h3, h4, h5]
            | ok vol => simp [processSession, h1, h2, hp, h3, h4, h5]

theorem except_isOk_of_eq_ok {α : Type} (x : Except OsError α) (a : α) (h : x = .ok a) :
    x.isOk = true := by
  subst h
  rfl

theorem processSession_stepsOk (ms : MockSession) (os : Option Session)
    (h : processSession ms = .ok os) : sessionStepsOk ms := by
  cases os with
  | none =>
    obtain ⟨h1, h2⟩ := (processSession_ok_none_iff ms).mp h
    exact ⟨except_isOk_of_eq_ok _ _ h1, 0, h2, fun h0 => absurd rfl h0⟩
  | some s =>
    obtain ⟨pid, vol, h1, h2, hp, h3, h4, h5, _⟩ := (processSession_ok_some_iff ms s).mp h
    exact ⟨except_isOk_of_eq_ok _ _ h1, pid, h2,
      fun _ => ⟨except_isOk_of_eq_ok _ _ h3, except_isOk_of_eq_ok _ _ h4,
        except_isOk_of_eq_ok _ _ h5⟩⟩

theorem processSessions_mem (ss : List (Except OsError MockSession)) (l : List Session)
    (h : processSessions ss = .ok l) :
    ∀ s ∈ l, ∃ ms, Except.ok ms ∈ ss ∧ processSession ms = .ok (some s) := by
  induction ss generalizing l with
  | nil =>
    unfold processSessions at h
    injection h with h
    subst h
    intro s hs
    cases hs
  | cons es rest ih =>
    unfold processSessions at h
    cases es with
    | error e => simp at h
    | ok ms =>
      dsimp only at h
      cases hps : processSession ms with
      | error e => rw [hps] at h; simp at h
      | ok os =>
        rw [hps] at h
        cases hrest : processSessions rest with
        | error e => rw [hrest] at h; simp at h
        | ok tail =>
          rw [hrest] at h
          cases os with
          | some s0 =>
            have hl : s0 :: tail = l := by injection h
            subst hl
            intro s hs
            rcases List.mem_cons.mp hs with rfl | hmem
            · exact ⟨ms, List.mem_cons_self _ _, hps⟩
            · obtain ⟨ms2, hmem2, hps2⟩ := ih tail hrest s hmem
              exact ⟨ms2, List.mem_cons_of_mem _ hmem2, hps2⟩
          | none =>
            have hl : tail = l := by injection h
            subst hl
            intro s hs
            obtain ⟨ms2, hmem2, hps2⟩ := ih tail hrest s hs
            exact ⟨ms2, List.mem_cons_of_mem _ hmem2, hps2⟩

theorem processSessions_steps (ss : List (Except OsError MockSession)) (l : List Session)
    (h : processSessions ss = .ok l) :
    ∀ es ∈ ss, ∃ ms, es = Except.ok ms ∧ sessionStepsOk ms := by
  induction ss generalizing l with
  | nil =>
    intro es hes
    cases hes
  | cons es0 rest ih =>
    unfold processSessions at h
    cases es0 with
    | error e => simp at h
    | ok ms =>
      dsimp only at h
      cases hps : processSession ms with
      | error e => rw [hps] at h; simp at h
      | ok os =>
        rw [hps] at h
        cases hrest : processSessions rest with
        | error e => rw [hrest] at h; simp at h
        | ok tail =>
          intro es hes
          rcases List.mem_cons.mp hes with rfl | hmem
          · exact ⟨ms, rfl, processSession_stepsOk ms os hps⟩
          · exact ih tail hrest es hmem

theorem processDevice_parts (md : MockDevice) (l : List Session)
    (h : processDevice md = .ok l) :
    md.activate = .ok () ∧ md.getSessionEnumerator = .ok () ∧
      ∃ ssl, md.sessionList = .ok ssl ∧ processSessions ssl = .ok l := by
  unfold processDevice at h
  cases h1 : md.activate with
  | error e => rw [h1] at h; simp at h
  | ok u =>
    cases u
    rw [h1] at h
    cases h2 : md.getSessionEnumerator with
    | error e => rw [h2] at h; simp at h
    | ok u2 =>
      cases u2
      rw [h2] at h
      cases h3 : md.sessionList with
      | error e => rw [h3] at h; simp at h
      | ok ssl =>
        rw [h3] at h
        exact ⟨rfl, rfl, ssl, rfl, h⟩

theorem processDevices_mem (devs : List (Except OsError MockDevice)) (l : List Session)
    (h : processDevices devs = .ok l) :
    ∀ s ∈ l, ∃ md, Except.ok md ∈ devs ∧ ∃ dl, processDevice md = .ok dl ∧ s ∈ dl := by
  induction devs generalizing l with
  | nil =>
    unfold processDevices at h
    injection h with h
    subst h
    intro s hs
    cases hs
  | cons ed rest ih =>
    unfold processDevices at h
    cases ed with
    | error e => simp at h
    | ok md =>
      dsimp only at h
      cases hpd : processDevice md with
      | error e => rw [hpd] at h; simp at h
      | ok dl =>
        rw [hpd] at h
        cases hrest : processDevices rest with
        | error e => rw [hrest] at h; simp at h
        | ok tail =>
          rw [hrest] at h
          have hl : dl ++ tail = l := by injection h
          subst hl
          intro s hs
          rcases List.mem_append.mp hs with hmem | hmem
          · exact ⟨md, List.mem_cons_self _ _, dl, hpd, hmem⟩
          · obtain ⟨md2, hmem2, dl2, hpd2, hsmem2⟩ := ih tail hrest s hmem
            exact ⟨md2, List.mem_cons_of_mem _ hmem2, dl2, hpd2, hsmem2⟩

theorem processDevices_steps (devs : List (Except OsError MockDevice)) (l : List Session)
    (h : processDevices devs = .ok l) :
    ∀ ed ∈ devs, ∃ md, ed = Except.ok md ∧ ∃ dl, processDevice md = .ok dl := by
  induction devs generalizing l with
  | nil =>
    intro ed hed
    cases hed
  | cons ed0 rest ih =>
    unfold processDevices at h
    cases ed0 with
    | error e => simp at h
    | ok md =>
      dsimp only at h
      cases hpd : processDevice md with
      | error e => rw [hpd] at h; simp at h
      | ok dl =>
        rw [hpd] at h
        cases hrest : processDevices rest with
        | error e => rw [hrest] at h; simp at h
        | ok tail =>
          intro ed hed
          rcases List.mem_cons.mp hed with rfl | hmem
          · exact ⟨md, rfl, dl, hpd⟩
          · exact ih tail hrest ed hmem

theorem enumerate_parts (w : MockWorld) (l : List Session)
    (h : enumerate w = .ok l) :
    w.coCreateInstance = .ok () ∧ w.enumAudioEndpoints = .ok () ∧
      ∃ devs, w.deviceList = .ok devs ∧ processDevices devs = .ok l := by
  unfold enumerate at h
  cases h1 : w.coCreateInstance with
  | error e => rw [h1] at h; simp at h
  | ok u =>
    cases u
    rw [h1] at h
    cases h2 : w.enumAudioEndpoints with
    | error e => rw [h2] at h; simp at h
    | ok u2 =>
      cases u2
      rw [h2] at h
      cases h3 : w.deviceList with
      | error e => rw [h3] at h; simp at h
      | ok devs =>
        rw [h3] at h
        exact ⟨rfl, rfl, devs, rfl, h⟩

theorem enumerate_mem (w : MockWorld) (l : List Session) (h : enumerate w = .ok l) :
    ∀ s ∈ l, ∃ devs, w.deviceList = .ok devs ∧ ∃ md, Except.ok md ∈ devs ∧
      ∃ ssl, md.sessionList = .ok ssl ∧ ∃ ms, Except.ok ms ∈ ssl ∧
        processSession ms = .ok (some s) := by
  obtain ⟨_, _, devs, hdevs, hpd⟩ := enumerate_parts w l h
  intro s hs
  obtain ⟨md, hmd, dl, hdl, hsdl⟩ := processDevices_mem devs l hpd s hs
  obtain ⟨_, _, ssl, hssl, hps⟩ := processDevice_parts md dl hdl
  obtain ⟨ms, hms, hok⟩ := processSessions_mem ssl dl hps s hsdl
  exact ⟨devs, hdevs, md, hmd, ssl, hssl, ms, hms, hok⟩

theorem processSessions_all_pid_zero (ss : List (Except OsError MockSession))
    (h : ∀ es ∈ ss, ∃ ms, es = Except.ok ms ∧ ms.castCtrl2 = .ok () ∧
      ms.getProcessId = .ok 0) :
    processSessions ss = .ok [] := by
  induction ss with
  | nil => rfl
  | cons es rest ih =>
    obtain ⟨ms, rfl, h1, h2⟩ := h _ (List.mem_cons_self _ _)
    have hnone : processSession ms = .ok none :=
      (processSession_ok_none_iff ms).mpr ⟨h1, h2⟩
    unfold processSessions
    dsimp only
    rw [hnone, ih (fun es2 hes2 => h es2 (List.mem_cons_of_mem _ hes2))]

theorem processDevices_all_pid_zero (devs : List (Except OsError MockDevice))
    (h : ∀ ed ∈ devs, ∃ md, ed = Except.ok md ∧ md.activate = .ok () ∧
      md.getSessionEnumerator = .ok () ∧ ∃ ssl, md.sessionList = .ok ssl ∧
        ∀ es ∈ ssl, ∃ ms, es = Except.ok ms ∧ ms.castCtrl2 = .ok () ∧
          ms.getProcessId = .ok 0) :
    processDevices devs = .ok [] := by
  induction devs with
  | nil => rfl
  | cons ed rest ih =>
    obtain ⟨md, rfl, h1, h2, ssl, h3, h4⟩ := h _ (List.mem_cons_self _ _)
    have hdev : processDevice md = .ok [] := by
      unfold processDevice
      rw [h1, h2, h3]
      exact processSessions_all_pid_zero ssl h4
    unfold processDevices
    dsimp only
    rw [hdev, ih (fun ed2 hed2 => h ed2 (List.mem_cons_of_mem _ hed2))]
    rfl

/-- C1 counterexample: in `c1World` every enumeration step succeeds and the
single session has pid 1234, but its `OpenProcess` call fails with error
5; `enumerate` then returns that error, so a process-open failure IS
propagated out of `enumerate()`, contrary to the claim that it is
swallowed with an empty-path session. -/
theorem claim_C1_counterexample : enumerate c1World = Except.error ⟨5⟩ := rfl

/-- C1 (amended): for a session with nonzero pid, a failure of the
module-name query (`GetModuleFileNameExW` returning 0) is swallowed
locally — the session is still produced, with an empty path — but a
failure of `OpenProcess` is not: it aborts the per-session processing
and propagates out of `enumerate()` as an error. -/
theorem claim_C1_amended (ms : MockSession) (pid : Nat)
    (hc : ms.castCtrl2 = .ok ()) (hpid : ms.getProcessId = .ok pid)
    (hnz : pid ≠ 0) :
    (∀ e, ms.openProcess = .error e → processSession ms = .error e) ∧
    (∀ vol, ms.openProcess = .ok () → ms.moduleName = none →
      ms.closeHandle = .ok () → ms.castVolume = .ok vol →
      processSession ms = .ok (some { pid := pid, path := [], vol := { handle := vol } })) ∧
    (∀ (w : MockWorld) (md : MockDevice) devs ssl e,
      w.coCreateInstance = .ok () → w.enumAudioEndpoints = .ok () →
      w.deviceList = .ok (Except.ok md :: devs) →
      md.activate = .ok () → md.getSessionEnumerator = .ok () →
      md.sessionList = .ok (Except.ok ms :: ssl) →
      ms.openProcess = .error e →
      enumerate w = .error e) := by
  refine ⟨?_, ?_, ?_⟩
  · intro e he
    simp [processSession, hc, hpid, if_neg hnz, he]
  · intro vol ho hm hcl hv
    simp [processSession, hc, hpid, if_neg hnz, ho, hm, hcl, hv,
      show rustPathFix (utf16Decode (List.replicate MAX_PATH 0)) = ([] : List Nat) from rfl]
  · intro w md devs ssl e hw1 hw2 hw3 hd1 hd2 hd3 he
    have hps : processSession ms = .error e := by
      simp [processSession, hc, hpid, if_neg hnz, he]
    have hpss : processSessions (Except.ok ms :: ssl) = .error e := by
      unfold processSessions
      dsimp only
      rw [hps]
    have hpd : processDevice md = .error e := by
      unfold processDevice
      rw [hd1, hd2, hd3]
      exact hpss
    have hpds : processDevices (Except.ok md :: devs) = .error e := by
      unfold processDevices
      dsimp only
      rw [hpd]
    unfold enumerate
    rw [hw1, hw2, hw3]
    exact hpds

/-- C1 witness: the amended theorem applied to the concrete session
`c1Session` (pid 1234, `OpenProcess` failing with error 5). -/
theorem claim_C1_witness :
    c1Session.castCtrl2 = Except.ok () ∧ c1Session.openProcess = Except.error ⟨5⟩ ∧
      processSession c1Session = Except.error ⟨5⟩ :=
  ⟨rfl, rfl, (claim_C1_amended c1Session 1234 rfl rfl (by decide)).1 ⟨5⟩ rfl⟩

/-- C2: every `Session` in a successful `enumerate()` result has a nonzero
pid — pid-0 (system-sounds) platform sessions are skipped and never
appear in the result. -/
theorem claim_C2_pids_nonzero (w : MockWorld) (l : List Session)
    (h : enumerate w = .ok l) : ∀ s ∈ l, s.pid ≠ 0 := by
  intro s hs
  obtain ⟨devs, _, md, _, ssl, _, ms, _, hok⟩ := enumerate_mem w l h s hs
  obtain ⟨pid, vol, _, _, hnz, _, _, _, hseq⟩ := (processSession_ok_some_iff ms s).mp hok
  subst hseq
  exact hnz

/-- C2 witness: on the concrete world `c2World`, `enumerate` returns the
single session `c2OutSession`, whose pid 1234 is nonzero by the claim
theorem. -/
theorem claim_C2_witness :
    enumerate c2World = Except.ok [c2OutSession] ∧ c2OutSession.pid ≠ 0 :=
  ⟨rfl, claim_C2_pids_nonzero c2World [c2OutSession] rfl c2OutSession (by simp)⟩

/-- C3: `enumerate()` is all-or-nothing — if it returns `Ok`, every
subsystem step it reached (device enumeration, endpoint activation,
session enumeration, per-session queries and capability casts) must
have succeeded; contrapositively, any failing step makes the whole call
return an error, and the `Except` result type carries no partial
session list in the error case. -/
theorem claim_C3_all_or_nothing (w : MockWorld) (l : List Session)
    (h : enumerate w = .ok l) :
    w.coCreateInstance.isOk = true ∧ w.enumAudioEndpoints.isOk = true ∧
    ∃ devs, w.deviceList = .ok devs ∧
      ∀ ed ∈ devs, ∃ md, ed = Except.ok md ∧
        md.activate.isOk = true ∧ md.getSessionEnumerator.isOk = true ∧
        ∃ ssl, md.sessionList = .ok ssl ∧
          ∀ es ∈ ssl, ∃ ms, es = Except.ok ms ∧ sessionStepsOk ms := by
  obtain ⟨h1, h2, devs, hdevs, hpd⟩ := enumerate_parts w l h
  refine ⟨except_isOk_of_eq_ok _ _ h1, except_isOk_of_eq_ok _ _ h2, devs, hdevs, ?_⟩
  intro ed hed
  obtain ⟨md, rfl, dl, hdl⟩ := processDevices_steps devs l hpd ed hed
  obtain ⟨ha, hg, ssl, hssl, hps⟩ := processDevice_parts md dl hdl
  exact ⟨md, rfl, except_isOk_of_eq_ok _ _ ha, except_isOk_of_eq_ok _ _ hg, ssl, hssl,
    processSessions_steps ssl dl hps⟩

/-- C3 witness: the theorem applied to the all-succeeding world `c3World`,
on which `enumerate` returns `Ok []`. -/
theorem claim_C3_witness :
    enumerate c3World = Except.ok [] ∧ c3World.coCreateInstance.isOk = true :=
  ⟨rfl, (claim_C3_all_or_nothing c3World [] rfl).1⟩

/-- C4: on teardown, `CoUninitialize` is invoked if and only if the
`com_initialized` flag recorded at construction is set; a context whose
`CoInitialize` did not succeed (the subsystem being owned elsewhere, per
the spec's `init() -> Result<Owned, AlreadyInitialized>` interface)
performs no deinitialization, and an owning context deinitializes
exactly once. -/
theorem claim_C4_release_iff_owned (r : Except OsError Unit) :
    ((winmixDefault r).com_initialized = r.isOk) ∧
    (dropCalls (winmixDefault r) ≠ [] ↔ r.isOk = true) ∧
    ((dropCalls (winmixDefault r)).count ComCall.coUninitialize
      = if r.isOk then 1 else 0) := by
  cases r with
  | error e =>
    refine ⟨rfl, ?_, rfl⟩
    simp [winmixDefault, dropCalls, Except.isOk]
  | ok u =>
    refine ⟨rfl, ?_, rfl⟩
    simp [winmixDefault, dropCalls, Except.isOk]

/-- C5: in any well-formed world (module names carry no interior nulls, as
`GetModuleFileNameExW` guarantees), every session returned by
`enumerate()` has a path that is empty or ends in a non-null character —
the buffer's trailing zero padding is stripped — and a session whose
module-name query failed gets exactly the empty path. -/
theorem claim_C5_no_trailing_nulls :
    (∀ (w : MockWorld) (l : List Session), WFWorld w → enumerate w = .ok l →
      ∀ s ∈ l, s.path.getLast? ≠ some 0) ∧
    (∀ (ms : MockSession) (s : Session), ms.moduleName = none →
      processSession ms = .ok (some s) → s.path = []) := by
  constructor
  · intro w l hwf h s hs
    obtain ⟨devs, hdevs, md, hmd, ssl, hssl, ms, hms, hok⟩ := enumerate_mem w l h s hs
    have hwfs : WFSession ms :=
      hwf devs hdevs (Except.ok md) hmd md rfl ssl hssl (Except.ok ms) hms ms rfl
    obtain ⟨pid, vol, _, _, _, _, _, _, hseq⟩ := (processSession_ok_some_iff ms s).mp hok
    subst hseq
    dsimp only
    cases hm : ms.moduleName with
    | some m =>
      show (rustPathFix (utf16Decode (fillBuffer m))).getLast? ≠ some 0
      have hm0 : 0 ∉ m := hwfs m hm
      have ht : 0 ∉ m.take MAX_PATH := fun hmem => hm0 (List.take_subset _ _ hmem)
      rw [fillBuffer_eq]
      rw [rustPathFix_decode_write _ _ ht]
      exact getLast?_ne_zero_of_not_mem _ (utf16Decode_not_mem_zero _ ht)
    | none =>
      show (rustPathFix (utf16Decode (List.replicate MAX_PATH 0))).getLast? ≠ some 0
      rw [show rustPathFix (utf16Decode (List.replicate MAX_PATH 0)) = ([] : List Nat)
        from rfl]
      simp
  · intro ms s hm h
    obtain ⟨pid, vol, _, _, _, _, _, _, hseq⟩ := (processSession_ok_some_iff ms s).mp h
    subst hseq
    dsimp only
    rw [hm]
    rfl

/-- C5 witness: on the concrete well-formed world `c5World`, `enumerate`
returns the single session `c5OutSession`, whose path ends in a
non-null character by the claim theorem. -/
theorem claim_C5_witness :
    enumerate c5World = Except.ok [c5OutSession] ∧ c5OutSession.path.getLast? ≠ some 0 :=
  ⟨rfl,
    claim_C5_no_trailing_nulls.1 c5World [c5OutSession]
      (by
        intro l hl ed hed md hmd ssl hssl es hes ms hms m hm
        injection hl with hl
        subst hl
        simp only [List.mem_singleton] at hed
        subst hed
        injection hmd with hmd
        subst hmd
        injection hssl with hssl
        subst hssl
        simp only [List.mem_singleton] at hes
        subst hes
        injection hms with hms
        subst hms
        injection hm with hm
        subst hm
        decide)
      rfl c5OutSession (by simp)⟩

/-- C6: `set_master_volume` performs no client-side clamping or
validation — whatever `Float` is supplied (in or out of `[0.0, 1.0]`),
the exact value, together with a null event-context pointer, is what
reaches the platform `SetMasterVolume` call. -/
theorem claim_C6_set_master_volume_forwards (hvol : ISimpleAudioVolume) (level : Float) :
    SimpleVolume.set_master_volume { handle := hvol } level
      = hvol.SetMasterVolume level none := rfl

/-- C7: construction of the lifecycle manager is a total function — even
when subsystem initialization fails, a `WinMix` value is produced, with
`com_initialized = false`, and no error surfaces at construction time. -/
theorem claim_C7_construction_total (e : OsError) :
    winmixDefault (Except.error e) = { com_initialized := false } := rfl

/-- C8: on a subsystem with exactly one active endpoint exposing exactly
two sessions with pids 0 and 1234 (all platform calls succeeding),
`enumerate()` returns `Ok` of exactly one `Session`, whose pid is
1234. -/
theorem claim_C8_two_sessions_scenario :
    enumerate c8World
      = Except.ok [{ pid := 1234, path := samplePathUnits,
                     vol := { handle := mockVolume } }] := rfl

/-- C9: process-handle usage is scope-local — for every session the trace
of handle events is either empty (no successful open happened) or
exactly a successful open immediately followed by the `CloseHandle`
call, within the processing of that same session; in particular opens
and closes balance.  (The `Session` record itself has no process-handle
field: see its definition.) -/
theorem claim_C9_handles_scope_local (ms : MockSession) :
    (sessionTrace ms = [] ∨
      sessionTrace ms = [PCall.openProcessCall, PCall.closeHandleCall]) ∧
    (sessionTrace ms).count PCall.openProcessCall
      = (sessionTrace ms).count PCall.closeHandleCall := by
  have hd : sessionTrace ms = [] ∨
      sessionTrace ms = [PCall.openProcessCall, PCall.closeHandleCall] := by
    unfold sessionTrace
    cases h1 : ms.castCtrl2 with
    | error e => simp
    | ok u =>
      cases h2 : ms.getProcessId with
      | error e => simp
      | ok pid =>
        by_cases hp : pid = 0
        · simp [hp]
        · cases h3 : ms.openProcess with
          | error e => simp [hp]
          | ok u3 => simp [hp]
  refine ⟨hd, ?_⟩
  rcases hd with h | h <;> rw [h] <;> rfl

/-- C10: when the initial subsystem calls succeed, `enumerate()` returns
`Ok []` (not an error) both when the active-endpoint collection is
empty and when every discovered session has pid 0. -/
theorem claim_C10_empty_results (w : MockWorld)
    (h1 : w.coCreateInstance = .ok ()) (h2 : w.enumAudioEndpoints = .ok ()) :
    (w.deviceList = .ok [] → enumerate w = .ok []) ∧
    (∀ devs, w.deviceList = .ok devs →
      (∀ ed ∈ devs, ∃ md, ed = Except.ok md ∧ md.activate = .ok () ∧
        md.getSessionEnumerator = .ok () ∧ ∃ ssl, md.sessionList = .ok ssl ∧
          ∀ es ∈ ssl, ∃ ms, es = Except.ok ms ∧ ms.castCtrl2 = .ok () ∧
            ms.getProcessId = .ok 0) →
      enumerate w = .ok []) := by
  constructor
  · intro h3
    unfold enumerate
    rw [h1, h2, h3]
    rfl
  · intro devs h3 hall
    unfold enumerate
    rw [h1, h2, h3]
    exact processDevices_all_pid_zero devs hall

/-- C10 witness: the theorem applied to `c10World`, whose single endpoint
exposes one pid-0 session; `enumerate` returns `Ok []`. -/
theorem claim_C10_witness :
    c10World.deviceList = Except.ok [Except.ok c10Device] ∧
      enumerate c10World = Except.ok [] :=
  ⟨rfl,
    (claim_C10_empty_results c10World rfl rfl).2 [Except.ok c10Device] rfl (by
      intro ed hed
      simp only [List.mem_singleton] at hed
      subst hed
      refine ⟨c10Device, rfl, rfl, rfl, [Except.ok c10Session], rfl, ?_⟩
      intro es hes
      simp only [List.mem_singleton] at hes
      subst hes
      exact ⟨c10Session, rfl, rfl, rfl⟩)⟩
